import Mathlib

/-!
Verification of the cane repository's time-indexed GRIB retrieval and
cache subsystem (src/unnamed/part_001): the time-key helpers,
GribService.getGribData's inner runQuery loop, convertGribToJson,
cleanupFiles, checkDataFreshness, and the route layer's sendNearestTo.

Modelling conventions:
* A JavaScript Date is modelled by its epoch value in milliseconds (Int).
  date-fns subHours/differenceInHours are exact millisecond arithmetic.
* The process timezone is modelled as UTC, so the date-fns format calls
  and the local-component Date constructor in getLatestAvailableTimestamp
  agree with the UTC accessors used by roundHours.
* The wall clock is modelled as constant during one fetch; the retry
  delays only advance the real clock, which can only make the 10-day
  lookback guard fire earlier.
* Calendar-level formatting/parsing claims use an explicit civil
  date-time structure (CivilTime), translated from the same source.
* Network, cache and converter outcomes are oracles passed in as
  functions (dependency injection of the collaborators); unbounded
  recursion in the source is driven by explicit fuel, with none meaning
  the recursion did not terminate within the given fuel.
-/

namespace Cane

/-- Milliseconds in one hour (1000 * 60 * 60). -/
def msPerHour : Int := 3600000

/-- Milliseconds in one day (1000 * 60 * 60 * 24). -/
def msPerDay : Int := 86400000

/-- Milliseconds in one 6-hour publication interval. -/
def msPerInterval : Int := 21600000

/-- UTC hour component of an epoch-millisecond instant (Date.getUTCHours). -/
def utcHourOfDay (t : Int) : Int := t / msPerHour % 24

/-- Start of the UTC day containing an instant. -/
def startOfUTCDay (t : Int) : Int := t - t % msPerDay

/-- The TimeKey grid point of an instant: hour floored to the largest
multiple of 6 hours, minutes/seconds zeroed, date preserved (UTC).
This is the instant denoted by roundHours/formatDateStamp
(part_001 lines 29-37). -/
def truncate6 (t : Int) : Int :=
  startOfUTCDay t + utcHourOfDay t / 6 * 6 * msPerHour

/-- GribService.getLatestAvailableTimestamp (part_001 lines 39-50):
rebuilds now from its (modelled-UTC) calendar components with the hour
floored to a multiple of 6 -- which zeroes minutes and seconds -- and
then applies subHours(_, 6). -/
def getLatestAvailableTimestamp (now : Int) : Int :=
  (startOfUTCDay now + utcHourOfDay now / 6 * 6 * msPerHour) - 6 * msPerHour

/-- C8: for every current time now, latestAvailable(now) equals
truncate(now, 6) minus exactly one 6-hour interval, hence is strictly
less than truncate(now, 6) by exactly one interval.  (The middle
conjunct identifies truncate6 with flooring to the 6-hour grid on the
epoch axis, showing the arithmetic is a genuine truncation.) -/
theorem getLatestAvailable_one_interval_back (now : Int) :
    getLatestAvailableTimestamp now = truncate6 now - msPerInterval ∧
    truncate6 now = now - now % msPerInterval ∧
    getLatestAvailableTimestamp now < truncate6 now := by
  refine ⟨?_, ?_, ?_⟩
  · simp only [getLatestAvailableTimestamp, truncate6, msPerInterval, msPerHour]
    omega
  · simp only [truncate6, startOfUTCDay, utcHourOfDay, msPerInterval, msPerHour, msPerDay]
    omega
  · simp only [getLatestAvailableTimestamp, truncate6, msPerInterval, msPerHour]
    omega

/-! ## RemoteFetcher: GribService.getGribData / runQuery (part_001 lines 52-166) -/

/-- The GribDataResponse record (part_001 lines 22-26).  stamp/targetDate
are false together exactly when nothing was found, so the record is a
tagged union: fetched carries the date whose formatDateStamp is the
stamp; downloaded distinguishes a fresh download from an existing
structured artifact. -/
inductive GribDataResponse where
  | unavailable : GribDataResponse
  | fetched (targetDate : Int) (downloaded : Bool) : GribDataResponse
deriving DecidableEq, Repr

/-- Outcome of one HTTPS attempt: a 200 response, a non-200 status
(lines 97-113), or a transport error (lines 145-161). -/
inductive AttemptResult where
  | ok : AttemptResult
  | badStatus (code : Nat) : AttemptResult
  | netError : AttemptResult
deriving DecidableEq, Repr

/-- Observable events of a runQuery execution: an issued HTTPS request
for a key, a scheduled retry delay before re-running the same key, and
a step back to the previous 6-hour key. -/
inductive Event where
  | request (date : Int) : Event
  | retryWait (date : Int) (delayMs : Int) : Event
  | stepBack (oldDate newDate : Int) : Event
deriving DecidableEq, Repr

/-- The inner runQuery of GribService.getGribData (part_001 lines
61-163), driven by fuel.  Oracles: attempt gives the network outcome of
the HTTPS request for (key, retryCount); cached is the
checkPath(json-data/stamp.json) test (line 115); writeOk is whether the
raw-artifact write stream finishes (lines 124-135).  Returns the event
trace and (if the recursion completed within fuel) the settled promise:
ok with a GribDataResponse, or error for a rejected write.

Line-by-line: entering runQuery first tests the 10-day lookback bound
(lines 65-73, (now - currentDate) / 86400000 > 10) and resolves the
all-false record; otherwise it issues the request.  On a 200 it checks
the structured cache and resolves downloaded:false without writing when
present, else streams the body and resolves downloaded:true (or rejects
on a write error).  On a non-200 status or a transport error -- the two
handlers are verbatim duplicates -- it re-runs the same key after
2^retryCount * 1000 ms while retryCount < 3, and otherwise re-enters
runQuery on subHours(currentDate, 6) with the counter reset. -/
def runQuery (now : Int) (attempt : Int → Nat → AttemptResult)
    (cached writeOk : Int → Bool) :
    Nat → Int → Nat → List Event × Option (Except Unit GribDataResponse)
  | 0, _, _ => ([], none)
  | fuel + 1, currentDate, retryCount =>
    if now - currentDate > 10 * msPerDay then
      ([], some (.ok .unavailable))
    else
      match attempt currentDate retryCount with
      | .ok =>
        if cached currentDate then
          ([.request currentDate], some (.ok (.fetched currentDate false)))
        else if writeOk currentDate then
          ([.request currentDate], some (.ok (.fetched currentDate true)))
        else
          ([.request currentDate], some (.error ()))
      | .badStatus _ =>
        if retryCount < 3 then
          let rest := runQuery now attempt cached writeOk fuel currentDate (retryCount + 1)
          (.request currentDate :: .retryWait currentDate (2 ^ retryCount * 1000) :: rest.1, rest.2)
        else
          let rest := runQuery now attempt cached writeOk fuel (currentDate - msPerInterval) 0
          (.request currentDate :: .stepBack currentDate (currentDate - msPerInterval) :: rest.1, rest.2)
      | .netError =>
        if retryCount < 3 then
          let rest := runQuery now attempt cached writeOk fuel currentDate (retryCount + 1)
          (.request currentDate :: .retryWait currentDate (2 ^ retryCount * 1000) :: rest.1, rest.2)
        else
          let rest := runQuery now attempt cached writeOk fuel (currentDate - msPerInterval) 0
          (.request currentDate :: .stepBack currentDate (currentDate - msPerInterval) :: rest.1, rest.2)

/-- GribService.getGribData (part_001 lines 52-59, 165): clamps a
future target to getLatestAvailableTimestamp and starts runQuery with
retryCount 0. -/
def getGribData (now : Int) (attempt : Int → Nat → AttemptResult)
    (cached writeOk : Int → Bool) (fuel : Nat) (targetDate : Int) :
    List Event × Option (Except Unit GribDataResponse) :=
  runQuery now attempt cached writeOk fuel
    (if getLatestAvailableTimestamp now < targetDate then getLatestAvailableTimestamp now
     else targetDate) 0

/-- Every issued request in a runQuery trace is at most 10 days before
now, and if the starting date lies on the 6-hour grid so does every
requested key (hence every requested key IS its own grid time). -/
lemma runQuery_request_bound (now : Int) (attempt : Int → Nat → AttemptResult)
    (cached writeOk : Int → Bool) :
    ∀ (fuel : Nat) (currentDate : Int) (retryCount : Nat) (key : Int),
      Event.request key ∈ (runQuery now attempt cached writeOk fuel currentDate retryCount).1 →
      now - key ≤ 10 * msPerDay ∧
        (currentDate % msPerInterval = 0 → key % msPerInterval = 0) := by
  intro fuel
  induction fuel with
  | zero => intro c rc key h; simp [runQuery] at h
  | succ n ih =>
    intro c rc key h
    rw [runQuery] at h
    by_cases hg : now - c > 10 * msPerDay
    · simp [hg] at h
    · rw [if_neg hg] at h
      cases hatt : attempt c rc <;> rw [hatt] at h
      · by_cases hc : cached c
        · simp [hc] at h
          exact ⟨by omega, fun ha => h ▸ ha⟩
        · by_cases hw : writeOk c <;> simp [hc, hw] at h <;>
            exact ⟨by omega, fun ha => h ▸ ha⟩
      · by_cases hrc : rc < 3
        · rw [if_pos hrc] at h
          simp only [List.mem_cons] at h
          rcases h with h | h | h
          · cases h; exact ⟨by omega, fun ha => ha⟩
          · cases h
          · exact ih c (rc + 1) key h
        · rw [if_neg hrc] at h
          simp only [List.mem_cons] at h
          rcases h with h | h | h
          · cases h; exact ⟨by omega, fun ha => ha⟩
          · cases h
          · have := ih (c - msPerInterval) 0 key h
            refine ⟨this.1, fun ha => this.2 ?_⟩
            simp only [msPerInterval] at ha ⊢
            omega
      · by_cases hrc : rc < 3
        · rw [if_pos hrc] at h
          simp only [List.mem_cons] at h
          rcases h with h | h | h
          · cases h; exact ⟨by omega, fun ha => ha⟩
          · cases h
          · exact ih c (rc + 1) key h
        · rw [if_neg hrc] at h
          simp only [List.mem_cons] at h
          rcases h with h | h | h
          · cases h; exact ⟨by omega, fun ha => ha⟩
          · cases h
          · have := ih (c - msPerInterval) 0 key h
            refine ⟨this.1, fun ha => this.2 ?_⟩
            simp only [msPerInterval] at ha ⊢
            omega

/-- C2: whenever (now - currentKeyTime) exceeds 10 days the fetch
terminates immediately with the Unavailable outcome (the all-false
record) and an empty event trace, i.e. without issuing a request; and
in every run, every issued request is for a key at most 10 days before
now -- when the starting key lies on the 6-hour grid, every examined
key is its own grid time, so no key whose grid time is more than 10
days old is ever examined. -/
theorem runQuery_lookback_bound (fuel : Nat) (now : Int)
    (attempt : Int → Nat → AttemptResult) (cached writeOk : Int → Bool)
    (currentDate : Int) (retryCount : Nat) :
    (now - currentDate > 10 * msPerDay →
      runQuery now attempt cached writeOk (fuel + 1) currentDate retryCount =
        ([], some (.ok .unavailable))) ∧
    (∀ key, Event.request key ∈ (runQuery now attempt cached writeOk fuel currentDate retryCount).1 →
      now - key ≤ 10 * msPerDay ∧
        (currentDate % msPerInterval = 0 → key % msPerInterval = 0)) := by
  constructor
  · intro hg
    rw [runQuery, if_pos hg]
  · exact runQuery_request_bound now attempt cached writeOk fuel currentDate retryCount

/-- C2 witness: at now = 864000001 ms and key 0 the lookback bound has
been exceeded, so the fetch returns Unavailable without any request. -/
theorem runQuery_lookback_bound_witness :
    runQuery 864000001 (fun _ _ => AttemptResult.netError) (fun _ => false) (fun _ => true)
      3 0 0 = ([], some (.ok .unavailable)) :=
  (runQuery_lookback_bound 2 864000001 (fun _ _ => AttemptResult.netError)
    (fun _ => false) (fun _ => true) 0 0).1 (by decide)

/-- The scheduled retry delays recorded for one key, in order. -/
def retryDelays (tr : List Event) (key : Int) : List Int :=
  tr.filterMap fun e =>
    match e with
    | .retryWait k d => if k = key then some d else none
    | _ => none

/-- The retry delays still possible at a given retryCount:
2^retryCount * 1000, doubling, up to the cap of 3 retries. -/
def powTail : Nat → List Int
  | 0 => [1000, 2000, 4000]
  | 1 => [2000, 4000]
  | 2 => [4000]
  | _ => []

/-- l1 is an initial segment of l2. -/
def initialSegment (l1 l2 : List Int) : Prop := ∃ t, l1 ++ t = l2

lemma initialSegment_nil (l : List Int) : initialSegment [] l := ⟨l, rfl⟩

lemma initialSegment_cons (a : Int) {l1 l2 : List Int}
    (h : initialSegment l1 l2) : initialSegment (a :: l1) (a :: l2) := by
  obtain ⟨t, ht⟩ := h
  exact ⟨t, by simp [ht]⟩

lemma initialSegment_length_le {l1 l2 : List Int} (h : initialSegment l1 l2) :
    l1.length ≤ l2.length := by
  obtain ⟨t, ht⟩ := h
  subst ht
  simp

/-- Retry-budget invariant of runQuery: starting from (currentDate,
retryCount) with retryCount ≤ 3, the delays recorded for the current
key are an initial segment of the remaining doubling schedule, keys
above the current one are never retried, and keys below it (reached by
stepping back) get at most the full schedule 1s, 2s, 4s. -/
lemma runQuery_retryDelays_invariant (now : Int) (attempt : Int → Nat → AttemptResult)
    (cached writeOk : Int → Bool) :
    ∀ (fuel : Nat) (currentDate : Int) (retryCount : Nat), retryCount ≤ 3 → ∀ key,
      (currentDate < key →
        retryDelays (runQuery now attempt cached writeOk fuel currentDate retryCount).1 key = []) ∧
      (key = currentDate →
        initialSegment
          (retryDelays (runQuery now attempt cached writeOk fuel currentDate retryCount).1 key)
          (powTail retryCount)) ∧
      (key < currentDate →
        initialSegment
          (retryDelays (runQuery now attempt cached writeOk fuel currentDate retryCount).1 key)
          (powTail 0)) := by
  intro fuel
  induction fuel with
  | zero =>
    intro c rc _ key
    refine ⟨fun _ => by simp [runQuery, retryDelays], fun _ => ?_, fun _ => ?_⟩ <;>
      simpa [runQuery, retryDelays] using initialSegment_nil _
  | succ n ih =>
    intro c rc hrc3 key
    have hsingle : ∀ d : Int, retryDelays [Event.request d] key = [] := by
      intro d; simp [retryDelays]
    by_cases hg : now - c > 10 * msPerDay
    · rw [runQuery, if_pos hg]
      exact ⟨fun _ => by simp [retryDelays], fun _ => by simpa [retryDelays] using initialSegment_nil _,
        fun _ => by simpa [retryDelays] using initialSegment_nil _⟩
    · rw [runQuery, if_neg hg]
      cases hatt : attempt c rc
      · dsimp only
        by_cases hc : cached c
        · simp only [hc, if_true]
          exact ⟨fun _ => hsingle c, fun _ => by simpa [hsingle c] using initialSegment_nil _,
            fun _ => by simpa [hsingle c] using initialSegment_nil _⟩
        · by_cases hw : writeOk c <;> simp only [hc, hw, if_true, if_false] <;>
            exact ⟨fun _ => hsingle c, fun _ => by simpa [hsingle c] using initialSegment_nil _,
              fun _ => by simpa [hsingle c] using initialSegment_nil _⟩
      · dsimp only
        by_cases hr : rc < 3
        · rw [if_pos hr]
          have hdel : ∀ tr : List Event,
              retryDelays (.request c :: .retryWait c (2 ^ rc * 1000) :: tr) key =
                (if c = key then [(2 : Int) ^ rc * 1000] else []) ++ retryDelays tr key := by
            intro tr
            by_cases hck : c = key <;> simp [retryDelays, hck]
          have ihr := ih c (rc + 1) (by omega) key
          refine ⟨fun hlt => ?_, fun heq => ?_, fun hlt => ?_⟩
          · rw [hdel, if_neg (by omega)]
            exact ihr.1 hlt
          · rw [hdel, if_pos heq.symm]
            have hpow : powTail rc = (2 : Int) ^ rc * 1000 :: powTail (rc + 1) := by
              interval_cases rc <;> simp [powTail]
            rw [hpow]
            exact initialSegment_cons _ (ihr.2.1 heq)
          · rw [hdel, if_neg (by omega)]
            exact ihr.2.2 hlt
        · rw [if_neg hr]
          have hrc : rc = 3 := by omega
          have hdel : ∀ tr : List Event,
              retryDelays (.request c :: .stepBack c (c - msPerInterval) :: tr) key =
                retryDelays tr key := by
            intro tr; simp [retryDelays]
          have ihr := ih (c - msPerInterval) 0 (by omega) key
          have hint : (0 : Int) < msPerInterval := by norm_num [msPerInterval]
          refine ⟨fun hlt => ?_, fun heq => ?_, fun hlt => ?_⟩
          · rw [hdel]
            exact ihr.1 (by omega)
          · rw [hdel, hrc]
            have : retryDelays (runQuery now attempt cached writeOk n (c - msPerInterval) 0).1 key = [] :=
              ihr.1 (by omega)
            simpa [this, powTail] using initialSegment_nil _
          · rw [hdel]
            rcases lt_trichotomy key (c - msPerInterval) with h | h | h
            · exact ihr.2.2 h
            · exact ihr.2.1 h
            · have : retryDelays (runQuery now attempt cached writeOk n (c - msPerInterval) 0).1 key = [] :=
                ihr.1 h
              simpa [this] using initialSegment_nil _
      · dsimp only
        by_cases hr : rc < 3
        · rw [if_pos hr]
          have hdel : ∀ tr : List Event,
              retryDelays (.request c :: .retryWait c (2 ^ rc * 1000) :: tr) key =
                (if c = key then [(2 : Int) ^ rc * 1000] else []) ++ retryDelays tr key := by
            intro tr
            by_cases hck : c = key <;> simp [retryDelays, hck]
          have ihr := ih c (rc + 1) (by omega) key
          refine ⟨fun hlt => ?_, fun heq => ?_, fun hlt => ?_⟩
          · rw [hdel, if_neg (by omega)]
            exact ihr.1 hlt
          · rw [hdel, if_pos heq.symm]
            have hpow : powTail rc = (2 : Int) ^ rc * 1000 :: powTail (rc + 1) := by
              interval_cases rc <;> simp [powTail]
            rw [hpow]
            exact initialSegment_cons _ (ihr.2.1 heq)
          · rw [hdel, if_neg (by omega)]
            exact ihr.2.2 hlt
        · rw [if_neg hr]
          have hrc : rc = 3 := by omega
          have hdel : ∀ tr : List Event,
              retryDelays (.request c :: .stepBack c (c - msPerInterval) :: tr) key =
                retryDelays tr key := by
            intro tr; simp [retryDelays]
          have ihr := ih (c - msPerInterval) 0 (by omega) key
          have hint : (0 : Int) < msPerInterval := by norm_num [msPerInterval]
          refine ⟨fun hlt => ?_, fun heq => ?_, fun hlt => ?_⟩
          · rw [hdel]
            exact ihr.1 (by omega)
          · rw [hdel, hrc]
            have : retryDelays (runQuery now attempt cached writeOk n (c - msPerInterval) 0).1 key = [] :=
              ihr.1 (by omega)
            simpa [this, powTail] using initialSegment_nil _
          · rw [hdel]
            rcases lt_trichotomy key (c - msPerInterval) with h | h | h
            · exact ihr.2.2 h
            · exact ihr.2.1 h
            · have : retryDelays (runQuery now attempt cached writeOk n (c - msPerInterval) 0).1 key = [] :=
                ihr.1 h
              simpa [this] using initialSegment_nil _

/-- C1: in every fetch started with retryCount 0, each key is retried
at most 3 times and the scheduled delays for any one key form an
initial segment of exactly [1s, 2s, 4s]; and a failure with the retry
budget exhausted (retryCount 3) steps back exactly one 6-hour interval
and re-enters runQuery on the new key with the counter reset -- by
definition of runQuery the re-entry performs the whole procedure,
beginning with the 10-day lookback check and, on a 200 response, the
structured-cache check, on the new key. -/
theorem runQuery_retry_backoff (fuel : Nat) (now : Int)
    (attempt : Int → Nat → AttemptResult) (cached writeOk : Int → Bool)
    (currentDate : Int) :
    (∀ key,
      initialSegment
        (retryDelays (runQuery now attempt cached writeOk fuel currentDate 0).1 key)
        [1000, 2000, 4000] ∧
      (retryDelays (runQuery now attempt cached writeOk fuel currentDate 0).1 key).length ≤ 3) ∧
    (∀ (f : Nat) (c : Int), attempt c 3 ≠ .ok → now - c ≤ 10 * msPerDay →
      runQuery now attempt cached writeOk (f + 1) c 3 =
        (.request c :: .stepBack c (c - msPerInterval) ::
            (runQuery now attempt cached writeOk f (c - msPerInterval) 0).1,
          (runQuery now attempt cached writeOk f (c - msPerInterval) 0).2)) := by
  constructor
  · intro key
    have hinv := runQuery_retryDelays_invariant now attempt cached writeOk fuel currentDate 0
      (by omega) key
    have hseg : initialSegment
        (retryDelays (runQuery now attempt cached writeOk fuel currentDate 0).1 key)
        [1000, 2000, 4000] := by
      rcases lt_trichotomy key currentDate with h | h | h
      · simpa [powTail] using hinv.2.2 h
      · simpa [powTail] using hinv.2.1 h
      · simpa [hinv.1 h] using initialSegment_nil _
    exact ⟨hseg, by simpa using initialSegment_length_le hseg⟩
  · intro f c hfail hbound
    rw [runQuery, if_neg (by omega)]
    cases hatt : attempt c 3
    · exact absurd hatt hfail
    · dsimp only
      rw [if_neg (show ¬ (3 : Nat) < 3 from by omega)]
    · dsimp only
      rw [if_neg (show ¬ (3 : Nat) < 3 from by omega)]

/-- C1 witness: with a permanently failing network, starting at key 0
the delays recorded for key 0 are exactly 1s, 2s, 4s (three retries),
and a failure at retryCount 3 steps back to key -21600000 and restarts
the procedure there. -/
theorem runQuery_retry_backoff_witness :
    initialSegment
      (retryDelays (runQuery 0 (fun _ _ => AttemptResult.netError) (fun _ => false)
        (fun _ => true) 6 0 0).1 0) [1000, 2000, 4000] ∧
    runQuery 0 (fun _ _ => AttemptResult.netError) (fun _ => false) (fun _ => true) 1 0 3 =
      ([Event.request 0, Event.stepBack 0 (-21600000)], none) := by
  constructor
  · exact ((runQuery_retry_backoff 6 0 (fun _ _ => AttemptResult.netError) (fun _ => false)
      (fun _ => true) 0).1 0).1
  · have h := (runQuery_retry_backoff 6 0 (fun _ _ => AttemptResult.netError) (fun _ => false)
      (fun _ => true) 0).2 0 0 (by decide) (by decide)
    simpa [runQuery, msPerInterval] using h

/-! ## NearestResolver: sendNearestTo (routes file, lines 442-484) -/

/-- The searchLimit guard (lines 448-453): JavaScript truthiness of
searchLimit (an absent or zero limit disables the test) and
Math.abs(now - targetDate) / 86400000 >= searchLimit.  Note the
distance is measured from the current time, not from the originally
requested time. -/
def searchLimitHit (now targetDate : Int) : Option Int → Bool
  | some l => decide (l ≠ 0) && decide (|now - targetDate| ≥ l * msPerDay)
  | none => false

/-- What one invocation of sendNearestTo does before any recursion. -/
inductive NearestAct where
  | throwNotFound : NearestAct
  | done (date : Int) : NearestAct
  | recurse (target : Int) (fwd : Bool) : NearestAct
deriving DecidableEq, Repr

/-- The fetch-and-serve part of one sendNearestTo invocation (lines
464-483): on a stamp, serve the file or -- on a sendFile error -- move
6 hours in the current direction; on no stamp, move 6 hours in the
current direction. -/
def sendNearestFetch (getGrib : Int → GribDataResponse) (fileOk : Int → Bool)
    (targetDate : Int) (searchForwards : Bool) : NearestAct :=
  match getGrib targetDate with
  | .unavailable =>
    .recurse (if searchForwards then targetDate + msPerInterval
              else targetDate - msPerInterval) searchForwards
  | .fetched d _ =>
    if fileOk d then .done d
    else .recurse (if searchForwards then targetDate + msPerInterval
                   else targetDate - msPerInterval) searchForwards

/-- One invocation of sendNearestTo (lines 442-484).  getGrib is the
awaited GribService.getGribData result for a target date; fileOk is
whether res.sendFile succeeds for the fetched date's artifact.  If the
searchLimit guard fires: searching backward reverses to forward from
targetDate + searchLimit days; searching forward throws ("No data
within searchLimit").  Otherwise the fetch-and-serve part runs. -/
def sendNearestStep (now : Int) (getGrib : Int → GribDataResponse)
    (fileOk : Int → Bool) (targetDate : Int) :
    Option Int → Bool → NearestAct
  | some l, searchForwards =>
    if searchLimitHit now targetDate (some l) then
      if searchForwards then .throwNotFound
      else .recurse (targetDate + l * msPerDay) true
    else sendNearestFetch getGrib fileOk targetDate searchForwards
  | none, searchForwards => sendNearestFetch getGrib fileOk targetDate searchForwards

/-- The recursion of sendNearestTo, driven by fuel.  Returns the list
of (targetDate, searchForwards) states visited, and none when the fuel
ran out, some none when "No data within searchLimit" was thrown, some
(some d) when a snapshot for date d was served.  The route handler
calls it with searchForwards at its default false (line 446). -/
def sendNearestTo (now : Int) (getGrib : Int → GribDataResponse)
    (fileOk : Int → Bool) :
    Nat → Int → Option Int → Bool → List (Int × Bool) × Option (Option Int)
  | 0, _, _, _ => ([], none)
  | fuel + 1, targetDate, searchLimit, searchForwards =>
    match sendNearestStep now getGrib fileOk targetDate searchLimit searchForwards with
    | .throwNotFound => ([(targetDate, searchForwards)], some none)
    | .done d => ([(targetDate, searchForwards)], some (some d))
    | .recurse t b =>
      let rest := sendNearestTo now getGrib fileOk fuel t searchLimit b
      ((targetDate, searchForwards) :: rest.1, rest.2)

/-- The backward 6-hour walk: the states an unbounded backward search
visits, starting at a target and stepping back one interval each time. -/
def backWalk : Int → Nat → List (Int × Bool)
  | _, 0 => []
  | target, n + 1 => (target, false) :: backWalk (target - msPerInterval) n

/-- C10: with no searchLimit supplied and a provider for which every
fetch returns Unavailable, sendNearestTo never terminates: for every
fuel the recursion is still running (result none -- never NotFound and
never a served snapshot), having visited exactly the unbounded backward
walk that steps the target 6 hours back at each state.  The only
termination test in sendNearestTo is inside searchLimitHit, which is
disabled when searchLimit is none. -/
theorem sendNearestTo_no_limit_diverges (fuel : Nat) (now : Int)
    (getGrib : Int → GribDataResponse) (fileOk : Int → Bool) (target : Int)
    (hun : ∀ d, getGrib d = .unavailable) :
    sendNearestTo now getGrib fileOk fuel target none false =
      (backWalk target fuel, none) := by
  induction fuel generalizing target with
  | zero => simp [sendNearestTo, backWalk]
  | succ n ih =>
    rw [sendNearestTo]
    have hstep : sendNearestStep now getGrib fileOk target none false =
        .recurse (target - msPerInterval) false := by
      simp [sendNearestStep, sendNearestFetch, hun target]
    rw [hstep]
    dsimp only
    rw [ih (target - msPerInterval)]
    rfl

/-- C10 witness: three steps of the limitless search with an
all-unavailable provider, still running and 6 hours further back each
time. -/
theorem sendNearestTo_no_limit_diverges_witness :
    sendNearestTo 0 (fun _ => GribDataResponse.unavailable) (fun _ => true) 3 0 none false =
      ([(0, false), (-21600000, false), (-43200000, false)], none) := by
  have h := sendNearestTo_no_limit_diverges 3 0 (fun _ => GribDataResponse.unavailable)
    (fun _ => true) 0 (fun _ => rfl)
  simpa [backWalk, msPerInterval] using h

/-- A step taken while already searching forward never turns the
search backward again. -/
lemma sendNearestFetch_fwd_monotone (getGrib : Int → GribDataResponse)
    (fileOk : Int → Bool) (targetDate : Int) :
    ∀ t b, sendNearestFetch getGrib fileOk targetDate true = .recurse t b → b = true := by
  intro t b h
  unfold sendNearestFetch at h
  cases hgr : getGrib targetDate <;> rw [hgr] at h <;> dsimp only at h
  · injection h with h1 h2
    exact h2.symm
  · rename_i d dl
    cases hf : fileOk d <;> rw [hf] at h
    · rw [if_neg (by decide)] at h
      injection h with h1 h2
      exact h2.symm
    · rw [if_pos rfl] at h
      exact absurd h (by simp)

/-- A step taken while already searching forward never turns the
search backward again. -/
lemma sendNearestStep_fwd_monotone (now : Int) (getGrib : Int → GribDataResponse)
    (fileOk : Int → Bool) (targetDate : Int) (searchLimit : Option Int) :
    ∀ t b, sendNearestStep now getGrib fileOk targetDate searchLimit true = .recurse t b →
      b = true := by
  intro t b h
  cases searchLimit with
  | none =>
    rw [sendNearestStep] at h
    exact sendNearestFetch_fwd_monotone getGrib fileOk targetDate t b h
  | some l =>
    rw [sendNearestStep] at h
    by_cases hg : searchLimitHit now targetDate (some l)
    · rw [if_pos hg, if_pos rfl] at h
      exact absurd h (by simp)
    · rw [if_neg hg] at h
      exact sendNearestFetch_fwd_monotone getGrib fileOk targetDate t b h

/-- Forward-flag monotonicity along a sendNearestTo run: once the
search is forward every later visited state is forward, and in any run
no forward state is ever followed by a backward one. -/
lemma sendNearestTo_fwd_monotone (now : Int) (getGrib : Int → GribDataResponse)
    (fileOk : Int → Bool) :
    ∀ (fuel : Nat) (t : Int) (sl : Option Int) (b : Bool),
      (b = true → ∀ p ∈ (sendNearestTo now getGrib fileOk fuel t sl b).1, p.2 = true) ∧
      List.Pairwise (fun p q : Int × Bool => p.2 = true → q.2 = true)
        (sendNearestTo now getGrib fileOk fuel t sl b).1 := by
  intro fuel
  induction fuel with
  | zero => intro t sl b; simp [sendNearestTo]
  | succ n ih =>
    intro t sl b
    rw [sendNearestTo]
    cases hstep : sendNearestStep now getGrib fileOk t sl b
    · refine ⟨fun hb p hp => ?_, by simp⟩
      simp only [List.mem_singleton] at hp
      simp [hp, hb]
    · refine ⟨fun hb p hp => ?_, by simp⟩
      simp only [List.mem_singleton] at hp
      simp [hp, hb]
    · rename_i t2 b2
      dsimp only
      have ihr := ih t2 sl b2
      have hstep2 : b = true → b2 = true := by
        intro hb
        subst hb
        exact sendNearestStep_fwd_monotone now getGrib fileOk t sl t2 b2 hstep
      constructor
      · intro hb p hp
        simp only [List.mem_cons] at hp
        rcases hp with hp | hp
        · simp [hp, hb]
        · exact ihr.1 (hstep2 hb) p hp
      · rw [List.pairwise_cons]
        exact ⟨fun q hq hbt => ihr.1 (hstep2 hbt) q hq, ihr.2⟩

/-- C4 counterexample: request time 0 at current time 0 with
searchLimit 1 day and an always-unavailable provider.  The search walks
back to -86400000 ms, the bound fires there, and the forward phase
starts at -86400000 + 86400000 = 0 -- the requested time itself, not
requestedTime + searchLimitDays = 86400000 as the claim states; the
run then ends in NotFound.  (The trace's first forward state is
(0, true).) -/
theorem sendNearestTo_reversal_counterexample :
    ((sendNearestTo 0 (fun _ => GribDataResponse.unavailable) (fun _ => true)
        12 0 (some 1) false).1.find? (fun p => p.2)) = some (0, true) ∧
    (sendNearestTo 0 (fun _ => GribDataResponse.unavailable) (fun _ => true)
        12 0 (some 1) false).2 = some none ∧
    (0 : Int) ≠ 0 + 1 * msPerDay := by
  refine ⟨by decide, by decide, by norm_num [msPerDay]⟩

/-- C4 (amended): when a searchLimit bound is supplied (and nonzero),
the guard fires as soon as the distance from the CURRENT time to the
current target reaches or exceeds the bound; while searching backward
it then reverses to the forward direction starting exactly at the
CURRENT target + searchLimit days, and if it fires while searching
forward the search throws NotFound.  Backward search always precedes
forward search: the route entry starts backward (searchForwards
defaults to false) and the forward flag is monotone -- no forward
state is ever followed by a backward one. -/
theorem sendNearestTo_bound_reversal (now : Int) (getGrib : Int → GribDataResponse)
    (fileOk : Int → Bool) (targetDate l : Int) :
    (l ≠ 0 → |now - targetDate| ≥ l * msPerDay →
      sendNearestStep now getGrib fileOk targetDate (some l) false =
        .recurse (targetDate + l * msPerDay) true ∧
      sendNearestStep now getGrib fileOk targetDate (some l) true = .throwNotFound) ∧
    (∀ t b, sendNearestStep now getGrib fileOk targetDate (some l) true = .recurse t b →
      b = true) ∧
    (∀ (fuel : Nat) (t0 : Int) (sl : Option Int),
      List.Pairwise (fun p q : Int × Bool => p.2 = true → q.2 = true)
        (sendNearestTo now getGrib fileOk fuel t0 sl false).1) := by
  refine ⟨fun hl hd => ?_, sendNearestStep_fwd_monotone now getGrib fileOk targetDate (some l),
    fun fuel t0 sl => (sendNearestTo_fwd_monotone now getGrib fileOk fuel t0 sl false).2⟩
  have hg : searchLimitHit now targetDate (some l) = true := by
    simp [searchLimitHit, hl, hd]
  constructor
  · rw [sendNearestStep, if_pos hg, if_neg (by decide)]
  · rw [sendNearestStep, if_pos hg, if_pos rfl]

/-- C4 amended-claim witness: at now = 0, target = -86400000 and
searchLimit 1 the fired guard reverses the backward search to forward
from target + 1 day = 0. -/
theorem sendNearestTo_bound_reversal_witness :
    sendNearestStep 0 (fun _ => GribDataResponse.unavailable) (fun _ => true)
      (-86400000) (some 1) false = .recurse 0 true := by
  have h := (sendNearestTo_bound_reversal 0 (fun _ => GribDataResponse.unavailable)
    (fun _ => true) (-86400000) 1).1 (by norm_num) (by norm_num [msPerDay])
  simpa [msPerDay] using h.1

/-! ## TimeKey at calendar level: formatDateStamp and the stamp re-parse

The stamp format "yyyyMMdd" + roundHours (helper file lines 4-12 and
part_001 lines 29-37) and its re-parse by slicing in
checkDataFreshness (part_001 lines 277-280) work on calendar
components, so this part of the embedding represents a Date by its
civil UTC components. -/

/-- A Date seen through its civil UTC components. -/
structure CivilTime where
  year : Nat
  month : Nat
  day : Nat
  hour : Nat
  minute : Nat
  second : Nat
deriving DecidableEq, Repr

/-- The component ranges of a real calendar Date (year capped at four
digits, as formatted by "yyyy"). -/
def ValidCivil (t : CivilTime) : Prop :=
  t.year < 10000 ∧ 1 ≤ t.month ∧ t.month ≤ 12 ∧ 1 ≤ t.day ∧ t.day ≤ 31 ∧
    t.hour < 24 ∧ t.minute < 60 ∧ t.second < 60

instance (t : CivilTime) : Decidable (ValidCivil t) := by
  unfold ValidCivil
  infer_instance

/-- The decimal digit character for a value below 10. -/
def digitChar (n : Nat) : Char := Char.ofNat (48 + n)

/-- Two-digit zero-padded decimal rendering (String.padStart(2, "0")
and the date-fns "MM"/"dd" tokens, for values below 100). -/
def pad2 (n : Nat) : List Char := [digitChar (n / 10 % 10), digitChar (n % 10)]

/-- Four-digit zero-padded decimal rendering (the date-fns "yyyy"
token, for values below 10000). -/
def pad4 (n : Nat) : List Char :=
  [digitChar (n / 1000 % 10), digitChar (n / 100 % 10), digitChar (n / 10 % 10),
    digitChar (n % 10)]

/-- roundHours (helper lines 4-8, part_001 lines 29-33): the UTC hour
floored to the interval, rendered as two zero-padded digits. -/
def roundHours (t : CivilTime) (interval : Nat) : List Char :=
  pad2 (t.hour / interval * interval)

/-- formatDateStamp (helper lines 10-12, part_001 lines 35-37):
format(date, "yyyyMMdd") + roundHours(date, 6), with the process
timezone modelled as UTC. -/
def formatDateStamp (t : CivilTime) : String :=
  String.mk (pad4 t.year ++ pad2 t.month ++ pad2 t.day ++ roundHours t 6)

/-- The TimeKey grid point of a civil instant: hour floored to a
multiple of 6, minutes and seconds zeroed, date preserved -- the UTC
truncation the stamp denotes. -/
def truncKey (t : CivilTime) : CivilTime :=
  ⟨t.year, t.month, t.day, t.hour / 6 * 6, 0, 0⟩

/-- Numeric value of a digit character. -/
def digitVal (c : Char) : Nat := c.toNat - 48

/-- checkDataFreshness's stamp re-parse (part_001 lines 277-280):
slice YYYY, MM, DD, HH out of the ten-character stamp and read them as
an ISO instant at minute/second zero in UTC; anything else is an
invalid date (parseISO), modelled as none. -/
def parseStampChars : List Char → Option CivilTime
  | [y1, y2, y3, y4, m1, m2, d1, d2, h1, h2] =>
    if y1.isDigit && y2.isDigit && y3.isDigit && y4.isDigit && m1.isDigit &&
        m2.isDigit && d1.isDigit && d2.isDigit && h1.isDigit && h2.isDigit then
      some ⟨digitVal y1 * 1000 + digitVal y2 * 100 + digitVal y3 * 10 + digitVal y4,
            digitVal m1 * 10 + digitVal m2,
            digitVal d1 * 10 + digitVal d2,
            digitVal h1 * 10 + digitVal h2, 0, 0⟩
    else none
  | _ => none

/-- Re-parse of a stamp string. -/
def parseStamp (s : String) : Option CivilTime := parseStampChars s.data

lemma digitChar_isDigit : ∀ d : Nat, d < 10 → (digitChar d).isDigit = true := by decide

lemma digitVal_digitChar : ∀ d : Nat, d < 10 → digitVal (digitChar d) = d := by decide

lemma mod_ten_lt (x : Nat) : x % 10 < 10 := Nat.mod_lt _ (by norm_num)

/-- Parsing the formatted stamp of a valid civil instant recovers
exactly its 6-hour grid point. -/
lemma parseStamp_formatDateStamp (t : CivilTime) (h : ValidCivil t) :
    parseStamp (formatDateStamp t) = some (truncKey t) := by
  obtain ⟨hy, hm1, hm2, hd1, hd2, hh, hmin, hsec⟩ := h
  show parseStampChars (pad4 t.year ++ pad2 t.month ++ pad2 t.day ++ roundHours t 6) =
    some (truncKey t)
  simp only [pad4, pad2, roundHours, List.cons_append, List.nil_append, parseStampChars]
  rw [if_pos]
  · simp only [Option.some.injEq]
    have hv : ∀ x : Nat, digitVal (digitChar (x % 10)) = x % 10 := fun x =>
      digitVal_digitChar _ (mod_ten_lt x)
    simp only [hv]
    have hy4 : t.year / 1000 % 10 * 1000 + t.year / 100 % 10 * 100 +
        t.year / 10 % 10 * 10 + t.year % 10 = t.year := by omega
    have hm2' : t.month / 10 % 10 * 10 + t.month % 10 = t.month := by omega
    have hd2' : t.day / 10 % 10 * 10 + t.day % 10 = t.day := by omega
    have hh2 : t.hour / 6 * 6 / 10 % 10 * 10 + t.hour / 6 * 6 % 10 = t.hour / 6 * 6 := by
      omega
    simp [truncKey, hy4, hm2', hd2', hh2]
  · simp only [Bool.and_eq_true]
    refine ⟨⟨⟨⟨⟨⟨⟨⟨⟨?_, ?_⟩, ?_⟩, ?_⟩, ?_⟩, ?_⟩, ?_⟩, ?_⟩, ?_⟩, ?_⟩ <;>
      exact digitChar_isDigit _ (mod_ten_lt _)

/-- The stamp formatter is injective on grid points: two valid civil
instants with the same stamp have the same 6-hour grid point. -/
lemma formatDateStamp_inj {t1 t2 : CivilTime} (h1 : ValidCivil t1)
    (h2 : ValidCivil t2) (he : formatDateStamp t1 = formatDateStamp t2) :
    truncKey t1 = truncKey t2 := by
  have p1 := parseStamp_formatDateStamp t1 h1
  have p2 := parseStamp_formatDateStamp t2 h2
  rw [he, p2] at p1
  exact (Option.some.injEq _ _ ▸ p1).symm

/-- C7: for every valid timestamp t, the hour component of TimeKey(t)
is a multiple of 6 and at most t's hour, and re-parsing the formatted
key format(TimeKey(t)) = formatDateStamp t (a YYYYMMDDHH string read
in UTC) yields exactly the 6-hour grid point obtained by truncating t
in UTC (hour floored, minutes/seconds zeroed, date preserved). -/
theorem timeKey_hour_and_roundtrip (t : CivilTime) (h : ValidCivil t) :
    (truncKey t).hour % 6 = 0 ∧
    (truncKey t).hour ≤ t.hour ∧
    formatDateStamp (truncKey t) = formatDateStamp t ∧
    parseStamp (formatDateStamp t) = some (truncKey t) := by
  refine ⟨Nat.mul_mod_left _ 6, Nat.div_mul_le_self _ _, ?_,
    parseStamp_formatDateStamp t h⟩
  have : t.hour / 6 * 6 / 6 = t.hour / 6 := Nat.mul_div_cancel _ (by norm_num)
  simp [formatDateStamp, roundHours, truncKey, this]

/-- C7 witness: 2024-03-01T05:30:00Z formats to "2024030100", whose
re-parse is the grid point 2024-03-01T00:00:00Z. -/
theorem timeKey_hour_and_roundtrip_witness :
    (truncKey ⟨2024, 3, 1, 5, 30, 0⟩).hour % 6 = 0 ∧
    (truncKey ⟨2024, 3, 1, 5, 30, 0⟩).hour ≤ (CivilTime.mk 2024 3 1 5 30 0).hour ∧
    formatDateStamp (truncKey ⟨2024, 3, 1, 5, 30, 0⟩) = formatDateStamp ⟨2024, 3, 1, 5, 30, 0⟩ ∧
    parseStamp (formatDateStamp ⟨2024, 3, 1, 5, 30, 0⟩) = some (truncKey ⟨2024, 3, 1, 5, 30, 0⟩) :=
  timeKey_hour_and_roundtrip ⟨2024, 3, 1, 5, 30, 0⟩ (by decide)

/-! ## CacheStore freshness: checkDataFreshness (part_001 lines 264-295) -/

/-- date-fns differenceInHours(now, mtime): millisecond difference
divided by an hour, truncated toward zero (Int.div). -/
def fileAgeHours (now mtime : Int) : Int := Int.tdiv (now - mtime) msPerHour

/-- The .catch handler at the end of the background chain (lines
290-292): an error is logged and discarded, never rethrown. -/
def catchLogged (r : Except Unit Unit) : Unit :=
  match r with
  | .ok _ => ()
  | .error _ => ()

/-- checkDataFreshness (part_001 lines 264-295).  A structured file is
(stamp, mtime) -- names are stamp.json with the extension stripped as
on line 277.  For every file older than maxAgeHours it derives the
stamp's timestamp by slicing (lines 278-280) and fires
getGribData(date).then(convert).catch(log) without awaiting it.  The
oracle bg gives each background chain's outcome.  The function's value
is the list of fired triggers (stamp, parsed date) together with the
caught results of the background chains; the source function returns
void and can neither block on nor fail from those chains. -/
def checkDataFreshness (bg : String → Except Unit Unit)
    (files : List (String × Int)) (now maxAgeHours : Int) :
    List (String × Option CivilTime) × List Unit :=
  let triggers := (files.filter fun f => fileAgeHours now f.2 > maxAgeHours).map
    fun f => (f.1, parseStamp f.1)
  (triggers, triggers.map fun tr => catchLogged (bg tr.1))

/-- C3: checkDataFreshness fires a background re-fetch trigger for
exactly the files older than the threshold; the trigger for an
artifact named by its own formatDateStamp carries exactly that
artifact's grid key (and the formatter is injective on grid keys, so
the derived key can collide with no other key, in particular with no
adjacent key); and the whole operation is fire-and-forget -- its
result is a plain value, identical whatever the outcomes of the
background chains, so background failures are never propagated to the
caller. -/
theorem checkDataFreshness_refetch_exact (bg bg2 : String → Except Unit Unit)
    (files : List (String × Int)) (now maxAgeHours : Int) :
    ((checkDataFreshness bg files now maxAgeHours).1 =
      (files.filter fun f => fileAgeHours now f.2 > maxAgeHours).map
        (fun f => (f.1, parseStamp f.1))) ∧
    (∀ (mtime : Int) (t : CivilTime), ValidCivil t →
      fileAgeHours now mtime > maxAgeHours →
      (formatDateStamp t, mtime) ∈ files →
      (formatDateStamp t, some (truncKey t)) ∈
        (checkDataFreshness bg files now maxAgeHours).1) ∧
    (∀ t1 t2 : CivilTime, ValidCivil t1 → ValidCivil t2 →
      formatDateStamp t1 = formatDateStamp t2 → truncKey t1 = truncKey t2) ∧
    checkDataFreshness bg files now maxAgeHours =
      checkDataFreshness bg2 files now maxAgeHours := by
  refine ⟨rfl, ?_, fun t1 t2 h1 h2 he => formatDateStamp_inj h1 h2 he, ?_⟩
  · intro mtime t hv hage hmem
    have h1 : (formatDateStamp t, mtime) ∈
        files.filter (fun f => fileAgeHours now f.2 > maxAgeHours) := by
      rw [List.mem_filter]
      exact ⟨hmem, by simpa using hage⟩
    have h2 := List.mem_map_of_mem (fun f : String × Int => (f.1, parseStamp f.1)) h1
    dsimp only at h2
    rw [parseStamp_formatDateStamp t hv] at h2
    exact h2
  · refine Prod.ext rfl ?_
    apply List.map_congr_left
    intro x _
    exact Subsingleton.elim _ _

/-- C3 witness: a cache entry for key "2024030100" whose age is 25
hours triggers a background re-fetch carrying exactly that key's grid
point. -/
theorem checkDataFreshness_refetch_exact_witness :
    (formatDateStamp ⟨2024, 3, 1, 0, 0, 0⟩, some (truncKey ⟨2024, 3, 1, 0, 0, 0⟩)) ∈
      (checkDataFreshness (fun _ => Except.ok ())
        [(formatDateStamp ⟨2024, 3, 1, 0, 0, 0⟩, 0)] 90000000 24).1 :=
  (checkDataFreshness_refetch_exact (fun _ => Except.ok ()) (fun _ => Except.ok ())
    [(formatDateStamp ⟨2024, 3, 1, 0, 0, 0⟩, 0)] 90000000 24).2.1 0
    ⟨2024, 3, 1, 0, 0, 0⟩ (by decide) (by decide) (by simp)

/-! ## CacheStore reconciliation and the ConversionInvoker

The json-data and grib-data directories are modelled as lists of stamp
strings: the source lists <stamp>.json / <stamp>.f000 names, filters by
extension and strips the extension mechanically (lines 238-247,
254-256), so the embedding tracks the stamps themselves.  Directory
listings have no duplicates, so unlinkSync is modelled by filtering the
stamp out. -/

/-- GribService.cleanupFiles (part_001 lines 237-262): both listings
are taken first; then every json stamp without a grib counterpart in
the original grib listing is deleted, and every grib stamp without a
json counterpart in the original json listing is deleted. -/
def cleanupFiles (jsonFiles gribFiles : List String) : List String × List String :=
  (jsonFiles.filter fun s => gribFiles.contains s,
   gribFiles.filter fun s => jsonFiles.contains s)

/-- C5: cleanupFiles removes every structured (json) stamp lacking a
raw (grib) counterpart and every raw stamp lacking a structured
counterpart -- a stamp is retained iff it is present on both sides, so
after one run every retained file has a matching pair -- and it is
idempotent: running it again on its own output deletes nothing. -/
theorem cleanupFiles_pairing_idempotent (jsonFiles gribFiles : List String) :
    (∀ s, s ∈ (cleanupFiles jsonFiles gribFiles).1 ↔ s ∈ jsonFiles ∧ s ∈ gribFiles) ∧
    (∀ s, s ∈ (cleanupFiles jsonFiles gribFiles).2 ↔ s ∈ gribFiles ∧ s ∈ jsonFiles) ∧
    cleanupFiles (cleanupFiles jsonFiles gribFiles).1 (cleanupFiles jsonFiles gribFiles).2 =
      cleanupFiles jsonFiles gribFiles := by
  have hmem1 : ∀ s, s ∈ (cleanupFiles jsonFiles gribFiles).1 ↔
      s ∈ jsonFiles ∧ s ∈ gribFiles := by
    intro s
    simp [cleanupFiles, List.mem_filter]
  have hmem2 : ∀ s, s ∈ (cleanupFiles jsonFiles gribFiles).2 ↔
      s ∈ gribFiles ∧ s ∈ jsonFiles := by
    intro s
    simp [cleanupFiles, List.mem_filter]
  refine ⟨hmem1, hmem2, ?_⟩
  show cleanupFiles (cleanupFiles jsonFiles gribFiles).1 (cleanupFiles jsonFiles gribFiles).2 =
    cleanupFiles jsonFiles gribFiles
  refine Prod.ext ?_ ?_
  · show ((cleanupFiles jsonFiles gribFiles).1.filter
        fun s => (cleanupFiles jsonFiles gribFiles).2.contains s) =
      (cleanupFiles jsonFiles gribFiles).1
    rw [List.filter_eq_self]
    intro s hs
    have h := (hmem1 s).mp hs
    simpa using (hmem2 s).mpr ⟨h.2, h.1⟩
  · show ((cleanupFiles jsonFiles gribFiles).2.filter
        fun s => (cleanupFiles jsonFiles gribFiles).1.contains s) =
      (cleanupFiles jsonFiles gribFiles).2
    rw [List.filter_eq_self]
    intro s hs
    have h := (hmem2 s).mp hs
    simpa using (hmem1 s).mpr ⟨h.2, h.1⟩

/-- C5 witness: the pair of listings (["a", "b"], ["b", "c"]) is
reconciled to the matched pair (["b"], ["b"]) on which a second run
deletes nothing. -/
theorem cleanupFiles_pairing_idempotent_witness :
    cleanupFiles (cleanupFiles ["a", "b"] ["b", "c"]).1
      (cleanupFiles ["a", "b"] ["b", "c"]).2 = cleanupFiles ["a", "b"] ["b", "c"] :=
  (cleanupFiles_pairing_idempotent ["a", "b"] ["b", "c"]).2.2

/-- Filesystem state: the stamps in json-data and in grib-data. -/
abbrev FsState := List String × List String

/-- The conversion core of convertGribToJson (part_001 lines 191-202):
run the external converter on grib-data/stamp.f000 writing
json-data/stamp.json; on success unlink the raw artifact; on failure
leave the filesystem as it is and rethrow the error. -/
def convertStep (convOk : String → Bool) (stamp : String) (st : FsState) :
    FsState × Except Unit Unit :=
  if convOk stamp then
    ((st.1.insert stamp, st.2.filter fun s => s != stamp), Except.ok ())
  else (st, Except.error ())

/-- Days-from-epoch to civil date (the calendar conversion underlying
the Date object; Gregorian, proleptic). -/
def civilFromDays (z0 : Int) : Int × Nat × Nat :=
  let z := z0 + 719468
  let era := z / 146097
  let doe := (z - era * 146097).toNat
  let yoe := (doe - doe / 1460 + doe / 36524 - doe / 146096) / 365
  let y : Int := (yoe : Int) + era * 400
  let doy := doe - (365 * yoe + yoe / 4 - yoe / 100)
  let mp := (5 * doy + 2) / 153
  let d := doy - (153 * mp + 2) / 5 + 1
  let m := if mp < 10 then mp + 3 else mp - 9
  (if m ≤ 2 then y + 1 else y, m, d)

/-- Epoch milliseconds to civil UTC components. -/
def msToCivil (t : Int) : CivilTime :=
  let days := t / msPerDay
  let msod := (t - days * msPerDay).toNat
  let c := civilFromDays days
  ⟨c.1.toNat, c.2.1, c.2.2, msod / 3600000, msod / 60000 % 60, msod / 1000 % 60⟩

/-- formatDateStamp on the millisecond axis (the stamp of a Date). -/
def formatDateStampMs (t : Int) : String := formatDateStamp (msToCivil t)

/-- GribService.convertGribToJson (part_001 lines 168-223), fuel-driven.
If the raw artifact is missing (lines 177-189) it re-downloads via
getGribData -- whose download effect adds the raw stamp -- and recurses
on the response, else throws.  Otherwise it runs the conversion core
(lines 191-202) and, on success, opportunistically backfills the
previous 6-hour key (lines 204-222): if that key's structured artifact
is absent it fetches and converts it, swallowing any error. -/
def convertGribToJson (convOk : String → Bool) (getGrib : Int → GribDataResponse) :
    Nat → String → Int → FsState → Option (FsState × Except Unit Unit)
  | 0, _, _, _ => none
  | fuel + 1, stamp, targetDate, st =>
    if st.2.contains stamp then
      match convertStep convOk stamp st with
      | (st1, .error _) => some (st1, .error ())
      | (st1, .ok _) =>
        let prevDate := targetDate - msPerInterval
        let prevStamp := formatDateStampMs prevDate
        if st1.1.contains prevStamp then some (st1, .ok ())
        else
          match getGrib prevDate with
          | .fetched d true =>
            let st2 := (st1.1, st1.2.insert (formatDateStampMs d))
            match convertGribToJson convOk getGrib fuel (formatDateStampMs d) d st2 with
            | none => none
            | some (st3, _) => some (st3, .ok ())
          | _ => some (st1, .ok ())
    else
      match getGrib targetDate with
      | .fetched d true =>
        let st2 := (st.1, st.2.insert (formatDateStampMs d))
        convertGribToJson convOk getGrib fuel (formatDateStampMs d) d st2
      | _ => some (st, .error ())

/-- C9: converting a key whose raw artifact exists: on converter
success the conversion core deletes exactly the raw artifact and the
structured artifact is present; on converter failure the filesystem is
left unchanged -- the raw artifact is retained, the key is still not
cached (if it was not before) -- and convertGribToJson propagates the
error to its immediate caller. -/
theorem convertGribToJson_success_failure (convOk : String → Bool) (stamp : String)
    (st : FsState) (hraw : st.2.contains stamp = true) :
    (convOk stamp = true →
      convertStep convOk stamp st =
        ((st.1.insert stamp, st.2.filter fun s => s != stamp), Except.ok ()) ∧
      stamp ∉ (convertStep convOk stamp st).1.2 ∧
      stamp ∈ (convertStep convOk stamp st).1.1) ∧
    (convOk stamp = false →
      convertStep convOk stamp st = (st, Except.error ()) ∧
      stamp ∈ (convertStep convOk stamp st).1.2 ∧
      (stamp ∉ st.1 → stamp ∉ (convertStep convOk stamp st).1.1) ∧
      (∀ (getGrib : Int → GribDataResponse) (fuel : Nat) (targetDate : Int),
        convertGribToJson convOk getGrib (fuel + 1) stamp targetDate st =
          some (st, Except.error ()))) := by
  constructor
  · intro hok
    refine ⟨by simp [convertStep, hok], ?_, ?_⟩
    · simp [convertStep, hok, List.mem_filter]
    · simp [convertStep, hok, List.mem_insert_iff]
  · intro hfail
    have hcs : convertStep convOk stamp st = (st, Except.error ()) := by
      simp [convertStep, hfail]
    refine ⟨hcs, ?_, ?_, ?_⟩
    · rw [hcs]
      simpa using hraw
    · intro hnc
      rw [hcs]
      exact hnc
    · intro getGrib fuel targetDate
      rw [convertGribToJson, if_pos hraw, hcs]

/-- C9 witness: converting stamp "k" with its raw artifact present and
a failing converter returns the error with the filesystem unchanged. -/
theorem convertGribToJson_success_failure_witness :
    convertGribToJson (fun _ => false) (fun _ => GribDataResponse.unavailable) 1 "k" 0
      (["x"], ["k"]) = some ((["x"], ["k"]), Except.error ()) :=
  ((convertGribToJson_success_failure (fun _ => false) "k" (["x"], ["k"])
    (by decide)).2 rfl).2.2.2 (fun _ => GribDataResponse.unavailable) 0 0

/-- C6: after a successful conversion of a key the raw artifact for
that key is gone, and cleanupFiles deletes any structured stamp whose
raw counterpart is absent -- in particular the just-converted key's
structured artifact when no new raw file for it exists, and in the
steady state where no raw artifacts remain at all, one cleanup run
purges the entire structured cache (there is no pending-set exemption
in the code). -/
theorem conversion_then_cleanup_purges (convOk : String → Bool) (stamp : String)
    (st : FsState) (hok : convOk stamp = true) :
    stamp ∉ ((convertStep convOk stamp st).1).2 ∧
    (∀ jsonFiles gribFiles : List String, stamp ∉ gribFiles →
      stamp ∉ (cleanupFiles jsonFiles gribFiles).1) ∧
    stamp ∉ (cleanupFiles ((convertStep convOk stamp st).1).1
      ((convertStep convOk stamp st).1).2).1 ∧
    (∀ jsonFiles : List String, cleanupFiles jsonFiles [] = ([], [])) := by
  have hgone : stamp ∉ ((convertStep convOk stamp st).1).2 := by
    simp [convertStep, hok, List.mem_filter]
  have hdel : ∀ jsonFiles gribFiles : List String, stamp ∉ gribFiles →
      stamp ∉ (cleanupFiles jsonFiles gribFiles).1 := by
    intro j g hng hmem
    simp only [cleanupFiles] at hmem
    rw [List.mem_filter] at hmem
    exact hng (by simpa using hmem.2)
  refine ⟨hgone, hdel, hdel _ _ hgone, ?_⟩
  intro j
  refine Prod.ext ?_ rfl
  show (j.filter fun s => List.contains [] s) = []
  induction j with
  | nil => rfl
  | cons a l ih => simp [List.filter_cons, ih]

/-- C6 witness: converting "k" out of state (json ["x"], grib ["k"])
and then reconciling deletes "k"'s structured artifact. -/
theorem conversion_then_cleanup_purges_witness :
    "k" ∉ (cleanupFiles ((convertStep (fun _ => true) "k" (["x"], ["k"])).1).1
      ((convertStep (fun _ => true) "k" (["x"], ["k"])).1).2).1 :=
  (conversion_then_cleanup_purges (fun _ => true) "k" (["x"], ["k"]) rfl).2.2.1

end Cane
